import Mathlib

/-!
Verification of PySQLite-Database-Viewer (`main.py`).

Shallow embedding, in Lean 4, of the behaviour of the single source file
`main.py` of the PySQLite-Database-Viewer repository, together with proofs
of the behavioural properties claimed for it.

The program is a PyQt5 GUI around `sqlite3`.  The embedding models:

* `DatabaseLoader.run` (the background "Table Lister" thread) as a function
  from an abstract SQLite file to the ordered trace of events it produces
  (connection open, progress signals, connection close, finished signal);
* `MainWindow.addTableTab` as a function from the tab list, the registry
  `database_items`, the clicked names and the outcome of the two SQL
  queries, to the resulting tabs, diagnostic log and connection lifecycle;
* the `MainWindow` event handlers (`loadDatabase`, `onDatabaseLoaded`,
  `onTreeItemClicked`, `closeTab`, `closeAllTabs`) as transitions of an
  application state machine, with a `Reachable` predicate closed under the
  events the GUI can deliver.

Python's float arithmetic in `int(((idx + 1) / total_tables) * 100)` is
modelled by exact rational arithmetic; `int` on a non-negative float
truncates, i.e. takes the floor (`progressValue_eq_floor` records the
bridge).  Purely presentational effects (icons, dock titles, status-bar
text, progress-bar visibility, current-tab selection) are not modelled.
-/

/-! ## The Table Lister: `DatabaseLoader.run` (main.py lines 19-37) -/

/-- Abstract model of the SQLite file handed to `DatabaseLoader`:
whether `sqlite3.connect` succeeds, whether the catalog query
`SELECT name FROM sqlite_master WHERE type='table';` succeeds, and,
when it does, the list of table names it returns in catalog order
(the query selects exactly one column, so a fetched row `table` is
modelled by the name `table[0]` it carries). -/
structure SQLiteFile where
  connectOk : Bool
  catalogOk : Bool
  tables : List String
deriving DecidableEq, Repr

/-- Observable events of one execution of `DatabaseLoader.run`, in order:
opening the connection, each `self.progress.emit(...)`, `conn.close()`,
and `self.finished.emit(table_list)`. -/
inductive LoaderEvent where
  | connOpen
  | progress (v : Nat)
  | connClose
  | finished (tables : List String)
deriving DecidableEq, Repr

/-- `int(((idx + 1) / total_tables) * 100)` from main.py line 33.  Under
exact arithmetic the float expression is `100 * (idx + 1) / total` and
`int` truncates the non-negative result toward zero, which is natural-number
division; `progressValue_eq_floor` proves this equal to the floor of the
rational `((idx + 1) / total) * 100`. -/
def progressValue (idx total : Nat) : Nat :=
  100 * (idx + 1) / total

/-- The `for idx, table in enumerate(tables)` loop of `run` (lines 31-34):
appends each fetched name `table[0]` to `table_list` and emits one progress
signal per entry.  Returns the emitted events and the final `table_list`. -/
def loaderLoop : List String → Nat → Nat → List LoaderEvent × List String
  | [], _, _ => ([], [])
  | t :: rest, idx, total =>
    (LoaderEvent.progress (progressValue idx total) :: (loaderLoop rest (idx + 1) total).1,
      t :: (loaderLoop rest (idx + 1) total).2)

/-- `DatabaseLoader.run` (lines 19-37) as an event trace.  If
`sqlite3.connect` raises, nothing happens; if the catalog query raises,
the exception propagates out of `run` after the connection was opened —
there is no try/finally in `run`, so neither `conn.close()` nor
`self.finished.emit` is reached. -/
def run (db : SQLiteFile) : List LoaderEvent :=
  if db.connectOk then
    if db.catalogOk then
      LoaderEvent.connOpen :: (loaderLoop db.tables 0 db.tables.length).1
        ++ [LoaderEvent.connClose,
            LoaderEvent.finished (loaderLoop db.tables 0 db.tables.length).2]
    else [LoaderEvent.connOpen]
  else []

/-- The progress values signalled during a trace, in order. -/
def progressOf (evs : List LoaderEvent) : List Nat :=
  evs.filterMap fun e =>
    match e with
    | LoaderEvent.progress v => some v
    | _ => none

/-- The table list carried by the first `finished` signal of a trace,
if any. -/
def finishedOf (evs : List LoaderEvent) : Option (List String) :=
  (evs.filterMap fun e =>
    match e with
    | LoaderEvent.finished ts => some ts
    | _ => none).head?

/-! ## Table tabs: `MainWindow.addTableTab` (main.py lines 202-243) -/

/-- One row of `PRAGMA table_info({table_name})`.  The code reads only
`col[1]`, the column name; `cid` and `ctype` stand for the row's other
fields (`cid`, `type`, ... are fetched but unused). -/
structure ColInfo where
  cid : Nat
  name : String
  ctype : String
deriving DecidableEq, Repr

/-- The `QTableWidget` built for one tab: title, row/column counts set by
`setRowCount`/`setColumnCount`, header labels, and the populated cell
grid (cells already stringified, as by `str(item)`). -/
structure TableTab where
  title : String
  rowCount : Nat
  colCount : Nat
  headers : List String
  cells : List (List String)
deriving DecidableEq, Repr

/-- Outcome of the two queries of `addTableTab` against the connected
file: the `SELECT * FROM {table_name}` scan may raise `sqlite3.Error`
(with message `msg`); otherwise `PRAGMA table_info({table_name})` may
raise; otherwise both return their rows. -/
inductive QueryOutcome where
  | selectFail (msg : String)
  | pragmaFail (rows : List (List String)) (msg : String)
  | ok (rows : List (List String)) (cols : List ColInfo)
deriving DecidableEq, Repr

/-- The diagnostic line printed by the `except sqlite3.Error` branch:
`print(f"Error loading table {table_name}: {e}")`. -/
def errMsg (tableName msg : String) : String :=
  "Error loading table " ++ tableName ++ ": " ++ msg

/-- The widget construction of lines 220-231: `setRowCount(len(data))`,
`setColumnCount(len(columns))`, headers `[col[1] for col in columns]`,
and the cell-population loop over `data`. -/
def mkTableWidget (tableName : String) (rows : List (List String)) (cols : List ColInfo) :
    TableTab :=
  { title := tableName
    rowCount := rows.length
    colCount := cols.length
    headers := cols.map (fun c => c.name)
    cells := rows }

/-- Observable result of one `addTableTab` call: the tab list afterwards,
the diagnostic lines printed, whether a connection was opened and whether
it was closed, and the query pairs issued (one entry `(dbPath, tableName)`
per pair of table-scoped queries started inside the `try` block). -/
structure TabOpenResult where
  tabs : List TableTab
  log : List String
  connOpened : Bool
  connClosed : Bool
  issued : List (String × String)
deriving DecidableEq, Repr

/-- `self.database_items.get(db_name)` over the registry, modelled as an
insertion-ordered association list (entries are the dicts
`{'path': db_path}`, holding just the path). -/
def lookupReg : List (String × String) → String → Option String
  | [], _ => none
  | e :: rest, name => if e.1 = name then some e.2 else lookupReg rest name

/-- `MainWindow.addTableTab` (lines 202-243).  If the registry lookup
fails the method returns at once (no connection).  Otherwise it connects,
runs the query pair inside `try`; on success it builds the widget and
appends a tab; on `sqlite3.Error` it prints the diagnostic and adds no
tab; the `finally` block closes the connection in every branch. -/
def addTableTab (tabs : List TableTab) (reg : List (String × String))
    (dbName tableName : String) (q : QueryOutcome) : TabOpenResult :=
  match lookupReg reg dbName with
  | none =>
    { tabs := tabs, log := [], connOpened := false, connClosed := false, issued := [] }
  | some dbPath =>
    match q with
    | QueryOutcome.selectFail m =>
      { tabs := tabs, log := [errMsg tableName m], connOpened := true, connClosed := true,
        issued := [(dbPath, tableName)] }
    | QueryOutcome.pragmaFail _ m =>
      { tabs := tabs, log := [errMsg tableName m], connOpened := true, connClosed := true,
        issued := [(dbPath, tableName)] }
    | QueryOutcome.ok rows cols =>
      { tabs := tabs ++ [mkTableWidget tableName rows cols], log := [],
        connOpened := true, connClosed := true, issued := [(dbPath, tableName)] }

/-- `MainWindow.closeTab` (lines 248-250): `removeTab(index)` removes the
tab at that index and is a no-op on an out-of-range index. -/
def closeTabFn (tabs : List TableTab) (i : Nat) : List TableTab :=
  tabs.eraseIdx i

/-- `MainWindow.closeAllTabs` (lines 245-246): `self.tabWidget.clear()`. -/
def closeAllTabsFn (_tabs : List TableTab) : List TableTab :=
  []

/-! ## The application state machine (`MainWindow`) -/

/-- The mutable `MainWindow` state the claims concern: `database_items`
(the registry), the set of names whose `DatabaseLoader` thread has been
started but has not yet delivered its result, the tree model (one root
per database, carrying its child table names in order), the open tabs,
and a ghost log of the table-scoped query pairs issued so far. -/
structure AppState where
  registry : List (String × String)
  pending : List String
  tree : List (String × List String)
  tabs : List TableTab
  tabQueries : List (String × String)
deriving DecidableEq, Repr

/-- The freshly constructed `MainWindow`: `database_items = {}`, empty
tree model, no tabs. -/
def initState : AppState :=
  { registry := [], pending := [], tree := [], tabs := [], tabQueries := [] }

/-- `MainWindow.loadDatabase` (lines 150-166): if `db_name` is already in
`database_items` it returns immediately; otherwise it stores
`{'path': db_path}` and starts a `DatabaseLoader` thread.  The returned
`Bool` records whether `self.loaderThread.start()` was reached, i.e.
whether an asynchronous load was triggered (the Python method itself
returns `None` on both paths). -/
def loadDatabase (s : AppState) (name path : String) : AppState × Bool :=
  if (lookupReg s.registry name).isSome then (s, false)
  else
    ({ s with registry := s.registry ++ [(name, path)], pending := s.pending ++ [name] },
      true)

/-- `MainWindow.onDatabaseLoaded` (lines 168-180): the loader thread for
`name` has delivered `tables`; a root item for the database is appended
to the tree model with one child per table, in order. -/
def onDatabaseLoaded (s : AppState) (name : String) (tables : List String) : AppState :=
  { s with pending := s.pending.erase name, tree := s.tree ++ [(name, tables)] }

/-- A click in the tree view: either on a root (database-level) item or on
the `j`-th child of the `i`-th root (a table-level item). -/
inductive ClickTarget where
  | root (i : Nat)
  | child (i j : Nat)
deriving DecidableEq, Repr

/-- `MainWindow.onTreeItemClicked` (lines 186-200): an item without a
parent only retitles the dock (not modelled); an item with a parent calls
`addTableTab(parent.text(), item.text())`, whose query pair is appended
to the ghost query log. -/
def onTreeItemClicked (s : AppState) (t : ClickTarget) (q : QueryOutcome) : AppState :=
  match t with
  | ClickTarget.root _ => s
  | ClickTarget.child i j =>
    match s.tree.get? i with
    | none => s
    | some e =>
      match e.2.get? j with
      | none => s
      | some tableName =>
        let r := addTableTab s.tabs s.registry e.1 tableName q
        { s with tabs := r.tabs, tabQueries := s.tabQueries ++ r.issued }

/-- The events the GUI can deliver to a `MainWindow`, as a transition
relation: a `loadDatabase` call, delivery of a loader thread's result,
death of a loader thread by an unhandled exception (its `run` raised, so
no `finished` signal ever arrives), a tree click with some query outcome,
and the two tab-closing commands. -/
inductive Step : AppState → AppState → Prop
  | load (s : AppState) (name path : String) : Step s (loadDatabase s name path).1
  | loaded (s : AppState) (name : String) (tables : List String) (h : name ∈ s.pending) :
      Step s (onDatabaseLoaded s name tables)
  | loadFail (s : AppState) (name : String) (h : name ∈ s.pending) :
      Step s { s with pending := s.pending.erase name }
  | click (s : AppState) (t : ClickTarget) (q : QueryOutcome) :
      Step s (onTreeItemClicked s t q)
  | closeTab (s : AppState) (i : Nat) : Step s { s with tabs := closeTabFn s.tabs i }
  | closeAll (s : AppState) : Step s { s with tabs := closeAllTabsFn s.tabs }

/-- States a `MainWindow` can actually be in: reachable from the fresh
window by GUI events. -/
inductive Reachable : AppState → Prop
  | init : Reachable initState
  | step {s t : AppState} : Reachable s → Step s t → Reachable t

/-! ### Registry lemmas -/

/-- Number of registry entries under a given name (the registry models a
dict, so reachable states keep this at most 1). -/
def countName : List (String × String) → String → Nat
  | [], _ => 0
  | e :: rest, name => (if e.1 = name then 1 else 0) + countName rest name

/-! ### The reachability invariant -/

/-- Invariant of reachable `MainWindow` states: the registry is a proper
map (at most one entry per name), every pending loader was registered
before its thread started, and every tree root was registered when it was
created. -/
def StateInv (s : AppState) : Prop :=
  (∀ n, countName s.registry n ≤ 1) ∧
  (∀ n ∈ s.pending, (lookupReg s.registry n).isSome = true) ∧
  (∀ e ∈ s.tree, (lookupReg s.registry e.1).isSome = true)

/-- Example state: the fresh window right after
`loadDatabase("shop.db", "/tmp/shop.db")`. -/
def exState1 : AppState := (loadDatabase initState "shop.db" "/tmp/shop.db").1

/-- Example state: `exState1` after its loader thread delivered
`["customers", "orders"]`. -/
def exState2 : AppState := onDatabaseLoaded exState1 "shop.db" ["customers", "orders"]

/-- Example state: `exState1` after its loader thread died with an
unhandled exception. -/
def exState3 : AppState := { exState1 with pending := exState1.pending.erase "shop.db" }

/-! ## Lemmas -/

/-! ### Basic lemmas about the loader -/

/-- Fidelity of `progressValue` to the source expression
`int(((idx + 1) / total_tables) * 100)` read over exact rational
arithmetic: truncating the non-negative quotient is the floor. -/
lemma progressValue_eq_floor (idx total : Nat) :
    progressValue idx total = ⌊(((idx : ℚ) + 1) / (total : ℚ)) * 100⌋₊ := by
  unfold progressValue
  rcases Nat.eq_zero_or_pos total with h | h
  · subst h
    simp
  · have htot : (total : ℚ) ≠ 0 := by
      exact_mod_cast Nat.pos_iff_ne_zero.mp h
    have hq : (((idx : ℚ) + 1) / (total : ℚ)) * 100
        = ((100 * (idx + 1) : ℕ) : ℚ) / ((total : ℕ) : ℚ) := by
      push_cast
      field_simp
      ring
    rw [hq, Nat.floor_div_nat, Nat.floor_natCast]

lemma loaderLoop_fst (ts : List String) (idx total : Nat) :
    (loaderLoop ts idx total).1 =
      (List.range ts.length).map fun k =>
        LoaderEvent.progress (progressValue (idx + k) total) := by
  induction ts generalizing idx with
  | nil => simp [loaderLoop]
  | cons t rest ih =>
    simp only [loaderLoop, ih (idx + 1), List.length_cons, List.range_succ_eq_map,
      List.map_cons, List.map_map]
    congr 1
    · apply List.map_congr_left
      intro k _
      simp only [Function.comp]
      congr 2
      omega

lemma loaderLoop_snd (ts : List String) (idx total : Nat) :
    (loaderLoop ts idx total).2 = ts := by
  induction ts generalizing idx with
  | nil => rfl
  | cons t rest ih => simp [loaderLoop, ih]

lemma run_success (db : SQLiteFile) (h1 : db.connectOk = true) (h2 : db.catalogOk = true) :
    run db =
      LoaderEvent.connOpen ::
        ((List.range db.tables.length).map fun k =>
          LoaderEvent.progress (progressValue k db.tables.length))
        ++ [LoaderEvent.connClose, LoaderEvent.finished db.tables] := by
  unfold run
  rw [h1, h2]
  simp only [if_true, loaderLoop_snd]
  rw [loaderLoop_fst]
  simp

lemma progressOf_map (f : Nat → Nat) (l : List Nat) :
    progressOf (l.map fun k => LoaderEvent.progress (f k)) = l.map f := by
  induction l with
  | nil => rfl
  | cons a l ih => simp [progressOf, List.filterMap_cons] at ih ⊢; exact ih

lemma progressOf_run (db : SQLiteFile) (h1 : db.connectOk = true) (h2 : db.catalogOk = true) :
    progressOf (run db) =
      (List.range db.tables.length).map fun k => progressValue k db.tables.length := by
  rw [run_success db h1 h2]
  simp only [progressOf, List.filterMap_cons, List.filterMap_append]
  rw [show ∀ l : List LoaderEvent, List.filterMap _ l = progressOf l from fun _ => rfl,
    progressOf_map]
  simp [progressOf, List.filterMap_cons]

lemma finishedOf_run (db : SQLiteFile) (h1 : db.connectOk = true) (h2 : db.catalogOk = true) :
    finishedOf (run db) = some db.tables := by
  rw [run_success db h1 h2]
  unfold finishedOf
  simp only [List.filterMap_cons, List.filterMap_append, List.filterMap_map]
  induction db.tables.length with
  | zero => rfl
  | succ n ih =>
    rw [List.range_succ]
    simp only [List.map_append, List.filterMap_append] at ih ⊢
    simp [ih]

lemma lookupReg_append_of_some {l : List (String × String)} {n : String} {p : String}
    (m : List (String × String)) (h : lookupReg l n = some p) :
    lookupReg (l ++ m) n = some p := by
  induction l with
  | nil => simp [lookupReg] at h
  | cons e rest ih =>
    by_cases he : e.1 = n <;> simp [lookupReg, he] at h ⊢
    · exact h
    · exact ih h

lemma lookupReg_append_of_none {l : List (String × String)} {n : String}
    (m : List (String × String)) (h : lookupReg l n = none) :
    lookupReg (l ++ m) n = lookupReg m n := by
  induction l with
  | nil => rfl
  | cons e rest ih =>
    by_cases he : e.1 = n <;> simp [lookupReg, he] at h ⊢
    exact ih h

lemma countName_eq_zero_of_none {l : List (String × String)} {n : String}
    (h : lookupReg l n = none) : countName l n = 0 := by
  induction l with
  | nil => rfl
  | cons e rest ih =>
    by_cases he : e.1 = n
    · simp [lookupReg, he] at h
    · simp [lookupReg, he] at h
      simp [countName, he]
      exact ih h

lemma one_le_countName_of_some {l : List (String × String)} {n : String} {p : String}
    (h : lookupReg l n = some p) : 1 ≤ countName l n := by
  induction l with
  | nil => simp [lookupReg] at h
  | cons e rest ih =>
    by_cases he : e.1 = n <;> simp [lookupReg, he] at h <;> simp [countName, he]
    exact ih h

lemma countName_append (l m : List (String × String)) (n : String) :
    countName (l ++ m) n = countName l n + countName m n := by
  induction l with
  | nil => simp [countName]
  | cons e rest ih => simp [countName, ih]; omega

/-! ### Projections of the event handlers -/

lemma onTreeItemClicked_registry (s : AppState) (t : ClickTarget) (q : QueryOutcome) :
    (onTreeItemClicked s t q).registry = s.registry := by
  cases t with
  | root i => rfl
  | child i j =>
    simp only [onTreeItemClicked]
    split
    · rfl
    · split <;> rfl

lemma onTreeItemClicked_pending (s : AppState) (t : ClickTarget) (q : QueryOutcome) :
    (onTreeItemClicked s t q).pending = s.pending := by
  cases t with
  | root i => rfl
  | child i j =>
    simp only [onTreeItemClicked]
    split
    · rfl
    · split <;> rfl

lemma onTreeItemClicked_tree (s : AppState) (t : ClickTarget) (q : QueryOutcome) :
    (onTreeItemClicked s t q).tree = s.tree := by
  cases t with
  | root i => rfl
  | child i j =>
    simp only [onTreeItemClicked]
    split
    · rfl
    · split <;> rfl

lemma addTableTab_issued {reg : List (String × String)} {dbName dbPath : String}
    (tabs : List TableTab) (tableName : String) (q : QueryOutcome)
    (h : lookupReg reg dbName = some dbPath) :
    (addTableTab tabs reg dbName tableName q).issued = [(dbPath, tableName)] := by
  cases q <;> simp [addTableTab, h]

lemma stateInv_init : StateInv initState := by
  refine ⟨fun n => ?_, fun n h => ?_, fun e h => ?_⟩ <;> simp [initState, countName] at *

lemma step_registry_mono {s t : AppState} (h : Step s t) {n p : String}
    (hl : lookupReg s.registry n = some p) : lookupReg t.registry n = some p := by
  cases h with
  | load name path =>
    unfold loadDatabase
    by_cases hr : (lookupReg s.registry name).isSome = true <;> simp [hr]
    · exact hl
    · exact lookupReg_append_of_some _ hl
  | loaded name tables h => exact hl
  | loadFail name h => exact hl
  | click t q => rw [onTreeItemClicked_registry]; exact hl
  | closeTab i => exact hl
  | closeAll => exact hl

lemma stateInv_step {s t : AppState} (hs : StateInv s) (h : Step s t) : StateInv t := by
  obtain ⟨hcount, hpend, htree⟩ := hs
  cases h with
  | load name path =>
    unfold loadDatabase
    by_cases hr : (lookupReg s.registry name).isSome = true <;> simp [hr]
    · exact ⟨hcount, hpend, htree⟩
    · have hnone : lookupReg s.registry name = none := by
        cases hx : lookupReg s.registry name
        · rfl
        · rw [hx] at hr; simp at hr
      refine ⟨fun n => ?_, fun n hn => ?_, fun e he => ?_⟩
      · rw [countName_append]
        by_cases hn : name = n
        · subst hn
          rw [countName_eq_zero_of_none hnone]
          simp [countName]
        · simp [countName, hn]
          exact hcount n
      · rcases List.mem_append.mp hn with hn | hn
        · rcases Option.isSome_iff_exists.mp (hpend n hn) with ⟨p, hp⟩
          rw [lookupReg_append_of_some _ hp]
          rfl
        · have : n = name := by simpa using hn
          subst this
          rw [lookupReg_append_of_none _ hnone]
          simp [lookupReg]
      · rcases Option.isSome_iff_exists.mp (htree e he) with ⟨p, hp⟩
        rw [lookupReg_append_of_some _ hp]
        rfl
  | loaded name tables h =>
    refine ⟨hcount, fun n hn => ?_, fun e he => ?_⟩
    · exact hpend n (List.mem_of_mem_erase hn)
    · rcases List.mem_append.mp he with he | he
      · exact htree e he
      · have : e = (name, tables) := by simpa using he
        subst this
        exact hpend name h
  | loadFail name h =>
    exact ⟨hcount, fun n hn => hpend n (List.mem_of_mem_erase hn), htree⟩
  | click t q =>
    refine ⟨fun n => ?_, fun n hn => ?_, fun e he => ?_⟩
    · rw [onTreeItemClicked_registry]
      exact hcount n
    · rw [onTreeItemClicked_pending] at hn
      rw [onTreeItemClicked_registry]
      exact hpend n hn
    · rw [onTreeItemClicked_tree] at he
      rw [onTreeItemClicked_registry]
      exact htree e he
  | closeTab i => exact ⟨hcount, hpend, htree⟩
  | closeAll => exact ⟨hcount, hpend, htree⟩

lemma reachable_stateInv {s : AppState} (h : Reachable s) : StateInv s := by
  induction h with
  | init => exact stateInv_init
  | step _ hstep ih => exact stateInv_step ih hstep

lemma reachable_star {s t : AppState} (hs : Reachable s)
    (h : Relation.ReflTransGen Step s t) : Reachable t := by
  induction h with
  | refl => exact hs
  | tail _ hstep ih => exact Reachable.step ih hstep

lemma star_registry_mono {s t : AppState} (h : Relation.ReflTransGen Step s t)
    {n p : String} (hl : lookupReg s.registry n = some p) :
    lookupReg t.registry n = some p := by
  induction h with
  | refl => exact hl
  | tail _ hstep ih => exact step_registry_mono hstep ih

/-! ### Reachability of the example states -/

lemma exState1_reachable : Reachable exState1 :=
  Reachable.step Reachable.init (Step.load initState "shop.db" "/tmp/shop.db")

lemma exState2_reachable : Reachable exState2 :=
  Reachable.step exState1_reachable
    (Step.loaded exState1 "shop.db" ["customers", "orders"] (by decide))

/-! ## The claims -/

/-- C1, counterexample: for the database with the three tables
`users`, `orders`, `logs`, the value emitted for the entry at index 1 is
66, while the mathematically rounded percentage round(100 × 2⁄3) is 67 —
the code truncates, it does not round. -/
theorem c1_counterexample :
    progressOf (run ⟨true, true, ["users", "orders", "logs"]⟩) = [33, 66, 100] ∧
    round (100 * ((1 : ℚ) + 1) / 3) = 67 := by
  constructor
  · decide
  · rw [round_eq]
    norm_num

/-- C1 (amended): for every database file whose catalog query succeeds,
the Table Lister emits, for the entry at zero-based index idx of the N
catalog entries, the truncated percentage ⌊100 × (idx+1) / N⌋ (Python's
`int(...)` on the non-negative quotient), and emits exactly one progress
value per entry processed. -/
theorem c1_truncated_progress (db : SQLiteFile)
    (h1 : db.connectOk = true) (h2 : db.catalogOk = true) :
    progressOf (run db) =
      (List.range db.tables.length).map
        (fun idx => 100 * (idx + 1) / db.tables.length) ∧
    (progressOf (run db)).length = db.tables.length := by
  have hp := progressOf_run db h1 h2
  constructor
  · rw [hp]
    rfl
  · rw [hp]
    simp

/-- C1 witness: the amended statement evaluated on a concrete
three-table database. -/
theorem c1_truncated_progress_witness :
    progressOf (run ⟨true, true, ["users", "orders", "logs"]⟩) =
      (List.range 3).map (fun idx => 100 * (idx + 1) / 3) ∧
    (progressOf (run ⟨true, true, ["users", "orders", "logs"]⟩)).length = 3 :=
  c1_truncated_progress _ rfl rfl

/-- C2, counterexample: for a database file with zero tables the Table
Lister emits no progress values at all, so the emitted sequence has no
last element and in particular its last element is not 100 — the claim
fails for the N = 0 database it quantifies over. -/
theorem c2_counterexample :
    progressOf (run ⟨true, true, []⟩) = [] ∧
    (progressOf (run ⟨true, true, []⟩)).getLast? ≠ some 100 := by
  decide

/-- C2 (amended): for every database file whose catalog query succeeds,
the emitted progress values form a non-decreasing sequence and the
finished signal carries exactly the N catalog entries in catalog order;
when N ≥ 1 the sequence's last element is 100 (for N = 0 no progress
values are emitted at all). -/
theorem c2_progress_monotone_final (db : SQLiteFile) (h1 : db.connectOk = true)
    (h2 : db.catalogOk = true) :
    (progressOf (run db)).Pairwise (· ≤ ·) ∧
    finishedOf (run db) = some db.tables ∧
    (1 ≤ db.tables.length → (progressOf (run db)).getLast? = some 100) := by
  have hp := progressOf_run db h1 h2
  refine ⟨?_, finishedOf_run db h1 h2, fun hn => ?_⟩
  · rw [hp]
    refine (List.pairwise_lt_range _).map _ ?_
    intro a b hab
    unfold progressValue
    exact Nat.div_le_div_right (Nat.mul_le_mul_left 100 (by omega))
  · rw [hp]
    obtain ⟨m, hm⟩ : ∃ m, db.tables.length = m + 1 :=
      ⟨db.tables.length - 1, by omega⟩
    rw [hm, List.range_succ, List.map_append]
    simp only [List.map_singleton]
    rw [List.getLast?_concat]
    unfold progressValue
    rw [Nat.mul_div_cancel _ (Nat.succ_pos m)]

/-- C2 witness: the amended statement evaluated on a concrete two-table
database, with the N ≥ 1 branch instantiated. -/
theorem c2_progress_monotone_final_witness :
    (progressOf (run ⟨true, true, ["customers", "orders"]⟩)).Pairwise (· ≤ ·) ∧
    finishedOf (run ⟨true, true, ["customers", "orders"]⟩) = some ["customers", "orders"] ∧
    (progressOf (run ⟨true, true, ["customers", "orders"]⟩)).getLast? = some 100 :=
  ⟨(c2_progress_monotone_final ⟨true, true, ["customers", "orders"]⟩ rfl rfl).1,
    (c2_progress_monotone_final ⟨true, true, ["customers", "orders"]⟩ rfl rfl).2.1,
    (c2_progress_monotone_final ⟨true, true, ["customers", "orders"]⟩ rfl rfl).2.2
      (by decide)⟩

/-- C3, counterexample: when the catalog query fails, `run` opens the
connection but never closes it and never emits the finished signal — the
claim that the connection is closed on every execution is false. -/
theorem c3_counterexample :
    LoaderEvent.connOpen ∈ run { connectOk := true, catalogOk := false, tables := [] } ∧
    LoaderEvent.connClose ∉ run { connectOk := true, catalogOk := false, tables := [] } ∧
    finishedOf (run { connectOk := true, catalogOk := false, tables := [] }) = none := by
  decide

/-- C3 (amended): when opening and the catalog query both succeed, the
connection is closed exactly once, before the completion signal; when the
catalog query fails the exception propagates — the opened connection is
never closed and no completion signal is emitted; when opening fails,
nothing is emitted at all. -/
theorem c3_close_before_finished (db : SQLiteFile) :
    (db.connectOk = true → db.catalogOk = true →
      ∃ evs, run db = LoaderEvent.connOpen :: evs
          ++ [LoaderEvent.connClose, LoaderEvent.finished db.tables] ∧
        LoaderEvent.connClose ∉ evs ∧ ∀ ts, LoaderEvent.finished ts ∉ evs) ∧
    (db.connectOk = true → db.catalogOk = false → run db = [LoaderEvent.connOpen]) ∧
    (db.connectOk = false → run db = []) := by
  refine ⟨fun h1 h2 => ?_, fun h1 h2 => ?_, fun h1 => ?_⟩
  · refine ⟨_, run_success db h1 h2, ?_, ?_⟩
    · intro hmem
      rcases List.mem_map.mp hmem with ⟨k, _, hk⟩
      cases hk
    · intro ts hmem
      rcases List.mem_map.mp hmem with ⟨k, _, hk⟩
      cases hk
  · unfold run
    rw [h1, h2]
    rfl
  · unfold run
    rw [h1]
    rfl

/-- C3 witness: the success branch of the amended statement evaluated on
a concrete one-table database. -/
theorem c3_close_before_finished_witness :
    ∃ evs, run ⟨true, true, ["t"]⟩ =
        LoaderEvent.connOpen :: evs
          ++ [LoaderEvent.connClose, LoaderEvent.finished ["t"]] ∧
      LoaderEvent.connClose ∉ evs ∧ ∀ ts, LoaderEvent.finished ts ∉ evs :=
  (c3_close_before_finished ⟨true, true, ["t"]⟩).1 rfl rfl

/-- C4: for every table-open attempt in which one of the two queries
fails with `sqlite3.Error`, the failure is caught and a diagnostic line
is printed, the tab collection is unchanged (same list, hence same count
and same set of tabs), and the connection opened for the attempt is still
closed by the `finally` block. -/
theorem c4_query_failure_no_tab (tabs : List TableTab) (reg : List (String × String))
    (dbName tableName dbPath : String) (q : QueryOutcome)
    (hreg : lookupReg reg dbName = some dbPath)
    (hfail : ∀ rows cols, q ≠ QueryOutcome.ok rows cols) :
    (addTableTab tabs reg dbName tableName q).tabs = tabs ∧
    (addTableTab tabs reg dbName tableName q).tabs.length = tabs.length ∧
    (addTableTab tabs reg dbName tableName q).log ≠ [] ∧
    (addTableTab tabs reg dbName tableName q).connOpened = true ∧
    (addTableTab tabs reg dbName tableName q).connClosed = true := by
  cases q with
  | selectFail m => simp [addTableTab, hreg]
  | pragmaFail rows m => simp [addTableTab, hreg]
  | ok rows cols => exact absurd rfl (hfail rows cols)

/-- C4 witness: a failing row scan on a registered database, with one
tab already open. -/
theorem c4_query_failure_no_tab_witness :
    (addTableTab [mkTableWidget "t0" [] []] [("shop.db", "/tmp/shop.db")] "shop.db" "orders"
      (QueryOutcome.selectFail "no such table")).tabs = [mkTableWidget "t0" [] []] ∧
    (addTableTab [mkTableWidget "t0" [] []] [("shop.db", "/tmp/shop.db")] "shop.db" "orders"
      (QueryOutcome.selectFail "no such table")).tabs.length = [mkTableWidget "t0" [] []].length ∧
    (addTableTab [mkTableWidget "t0" [] []] [("shop.db", "/tmp/shop.db")] "shop.db" "orders"
      (QueryOutcome.selectFail "no such table")).log ≠ [] ∧
    (addTableTab [mkTableWidget "t0" [] []] [("shop.db", "/tmp/shop.db")] "shop.db" "orders"
      (QueryOutcome.selectFail "no such table")).connOpened = true ∧
    (addTableTab [mkTableWidget "t0" [] []] [("shop.db", "/tmp/shop.db")] "shop.db" "orders"
      (QueryOutcome.selectFail "no such table")).connClosed = true :=
  c4_query_failure_no_tab _ _ _ _ "/tmp/shop.db" _ rfl
    (fun _ _ h => QueryOutcome.noConfusion h)

/-- C5: in every reachable window state, registering an already-present
name is a no-op returning false (state unchanged, no new loader thread,
still exactly one registry entry for the name), while registering an
absent name inserts it, starts one asynchronous load and returns true.
The returned boolean models whether `loaderThread.start()` was reached
(the Python method returns `None` on both paths). -/
theorem c5_register_bool (s : AppState) (hs : Reachable s) (name path : String) :
    ((lookupReg s.registry name).isSome = true →
      loadDatabase s name path = (s, false) ∧ countName s.registry name = 1) ∧
    (lookupReg s.registry name = none →
      (loadDatabase s name path).2 = true ∧
      lookupReg (loadDatabase s name path).1.registry name = some path ∧
      countName (loadDatabase s name path).1.registry name = 1 ∧
      (loadDatabase s name path).1.pending = s.pending ++ [name]) := by
  obtain ⟨hcount, -, -⟩ := reachable_stateInv hs
  constructor
  · intro h
    refine ⟨by unfold loadDatabase; simp [h], ?_⟩
    rcases Option.isSome_iff_exists.mp h with ⟨p, hp⟩
    have h1 := one_le_countName_of_some hp
    have h2 := hcount name
    omega
  · intro h
    have hfalse : (lookupReg s.registry name).isSome = false := by simp [h]
    unfold loadDatabase
    simp only [hfalse, Bool.false_eq_true, if_false]
    refine ⟨trivial, ?_, ?_, trivial⟩
    · rw [lookupReg_append_of_none _ h]
      simp [lookupReg]
    · rw [countName_append, countName_eq_zero_of_none h]
      simp [countName]

/-- C5 witness: re-registering `shop.db` in `exState1` is a no-op
returning false; registering it in the fresh window inserts it and
returns true. -/
theorem c5_register_bool_witness :
    (loadDatabase exState1 "shop.db" "/tmp/other.db" = (exState1, false) ∧
      countName exState1.registry "shop.db" = 1) ∧
    ((loadDatabase initState "shop.db" "/tmp/shop.db").2 = true ∧
      lookupReg (loadDatabase initState "shop.db" "/tmp/shop.db").1.registry "shop.db"
        = some "/tmp/shop.db" ∧
      countName (loadDatabase initState "shop.db" "/tmp/shop.db").1.registry "shop.db" = 1 ∧
      (loadDatabase initState "shop.db" "/tmp/shop.db").1.pending
        = initState.pending ++ ["shop.db"]) :=
  ⟨(c5_register_bool exState1 exState1_reachable "shop.db" "/tmp/other.db").1 (by decide),
    (c5_register_bool initState Reachable.init "shop.db" "/tmp/shop.db").2 (by decide)⟩

/-- C6: every successful table open appends one tab whose grid has row
count equal to the number of rows returned by the full scan and column
count equal to the number of columns returned by the metadata query; the
stored grid and header list have the same dimensions, and this includes
the 0-row and 0-column cases (the construction is total); the connection
is closed afterwards. -/
theorem c6_snapshot_dimensions (tabs : List TableTab) (reg : List (String × String))
    (dbName tableName dbPath : String) (rows : List (List String)) (cols : List ColInfo)
    (hreg : lookupReg reg dbName = some dbPath) :
    (addTableTab tabs reg dbName tableName (QueryOutcome.ok rows cols)).tabs
      = tabs ++ [mkTableWidget tableName rows cols] ∧
    (mkTableWidget tableName rows cols).rowCount = rows.length ∧
    (mkTableWidget tableName rows cols).colCount = cols.length ∧
    (mkTableWidget tableName rows cols).cells.length = rows.length ∧
    (mkTableWidget tableName rows cols).headers.length = cols.length ∧
    (addTableTab tabs reg dbName tableName (QueryOutcome.ok rows cols)).connClosed = true := by
  simp [addTableTab, hreg, mkTableWidget]

/-- C6 witness: a successful open of a table with 0 rows and 0 columns
does not crash and yields a 0 × 0 grid. -/
theorem c6_snapshot_dimensions_witness :
    (addTableTab [] [("shop.db", "/tmp/shop.db")] "shop.db" "empty"
      (QueryOutcome.ok [] [])).tabs = [] ++ [mkTableWidget "empty" [] []] ∧
    (mkTableWidget "empty" [] []).rowCount = ([] : List (List String)).length ∧
    (mkTableWidget "empty" [] []).colCount = ([] : List ColInfo).length ∧
    (mkTableWidget "empty" [] []).cells.length = ([] : List (List String)).length ∧
    (mkTableWidget "empty" [] []).headers.length = ([] : List ColInfo).length ∧
    (addTableTab [] [("shop.db", "/tmp/shop.db")] "shop.db" "empty"
      (QueryOutcome.ok [] [])).connClosed = true :=
  c6_snapshot_dimensions [] _ "shop.db" "empty" "/tmp/shop.db" [] [] rfl

/-- C7: in every reachable window state, clicking a root (database-level)
tree node issues no table query, while clicking a child (table-level)
node issues exactly one query pair, scoped to that node's table against
the path its parent's name resolves to in the registry — whatever the
queries' outcome. -/
theorem c7_click_query_scope (s : AppState) (hs : Reachable s) :
    (∀ i q, (onTreeItemClicked s (ClickTarget.root i) q).tabQueries = s.tabQueries) ∧
    (∀ i j q e tableName, s.tree.get? i = some e → e.2.get? j = some tableName →
      ∃ dbPath, lookupReg s.registry e.1 = some dbPath ∧
        (onTreeItemClicked s (ClickTarget.child i j) q).tabQueries
          = s.tabQueries ++ [(dbPath, tableName)]) := by
  constructor
  · intro i q
    rfl
  · intro i j q e tableName h1 h2
    obtain ⟨-, -, htree⟩ := reachable_stateInv hs
    rcases Option.isSome_iff_exists.mp (htree e (List.get?_mem h1)) with ⟨dbPath, hp⟩
    refine ⟨dbPath, hp, ?_⟩
    simp only [onTreeItemClicked, h1, h2]
    simp [addTableTab_issued _ _ _ hp]

/-- C7 witness: in the example state with database `shop.db` and tables
`customers`, `orders`, a root click issues nothing and a click on child 1
issues exactly the pair for `orders` against `/tmp/shop.db`. -/
theorem c7_click_query_scope_witness :
    (onTreeItemClicked exState2 (ClickTarget.root 0)
      (QueryOutcome.ok [] [])).tabQueries = exState2.tabQueries ∧
    ∃ dbPath, lookupReg exState2.registry "shop.db" = some dbPath ∧
      (onTreeItemClicked exState2 (ClickTarget.child 0 1)
        (QueryOutcome.ok [] [])).tabQueries = exState2.tabQueries ++ [(dbPath, "orders")] :=
  ⟨(c7_click_query_scope exState2 exState2_reachable).1 0 (QueryOutcome.ok [] []),
    (c7_click_query_scope exState2 exState2_reachable).2 0 1 (QueryOutcome.ok [] [])
      ("shop.db", ["customers", "orders"]) "orders" rfl rfl⟩

/-- C8: closing the tab at a valid index removes exactly that tab — the
result is the prefix before it together with the suffix after it, one
shorter than before — and closing all tabs always leaves zero tabs. -/
theorem c8_close_tab (tabs : List TableTab) (i : Nat) (h : i < tabs.length) :
    closeTabFn tabs i = tabs.take i ++ tabs.drop (i + 1) ∧
    (closeTabFn tabs i).length = tabs.length - 1 ∧
    ∀ ts : List TableTab, closeAllTabsFn ts = [] := by
  refine ⟨List.eraseIdx_eq_take_drop_succ tabs i, ?_, fun ts => rfl⟩
  have := List.length_eraseIdx_add_one h
  unfold closeTabFn
  omega

/-- C8 witness: closing tab 0 of two open tabs keeps exactly the other
tab. -/
theorem c8_close_tab_witness :
    closeTabFn [mkTableWidget "a" [] [], mkTableWidget "b" [] []] 0
      = [mkTableWidget "a" [] [], mkTableWidget "b" [] []].take 0
        ++ [mkTableWidget "a" [] [], mkTableWidget "b" [] []].drop 1 ∧
    (closeTabFn [mkTableWidget "a" [] [], mkTableWidget "b" [] []] 0).length
      = [mkTableWidget "a" [] [], mkTableWidget "b" [] []].length - 1 ∧
    ∀ ts : List TableTab, closeAllTabsFn ts = [] :=
  c8_close_tab [mkTableWidget "a" [] [], mkTableWidget "b" [] []] 0 (by decide)

/-- C9: for a database whose catalog lists zero tables, the Table Lister
emits no progress value at all (the loop body, and with it the percentage
division, is never executed), closes the connection, and emits the
completion signal carrying the empty table list. -/
theorem c9_zero_tables (db : SQLiteFile) (h1 : db.connectOk = true)
    (h2 : db.catalogOk = true) (h0 : db.tables = []) :
    run db = [LoaderEvent.connOpen, LoaderEvent.connClose, LoaderEvent.finished []] ∧
    progressOf (run db) = [] ∧
    finishedOf (run db) = some [] := by
  have hr := run_success db h1 h2
  rw [h0] at hr
  simp only [List.length_nil, List.range_zero, List.map_nil, List.nil_append] at hr
  exact ⟨hr, by rw [hr]; rfl, by rw [hr]; rfl⟩

/-- C9 witness: the statement evaluated on a concrete empty database. -/
theorem c9_zero_tables_witness :
    run ⟨true, true, []⟩
      = [LoaderEvent.connOpen, LoaderEvent.connClose, LoaderEvent.finished []] ∧
    progressOf (run ⟨true, true, []⟩) = [] ∧
    finishedOf (run ⟨true, true, []⟩) = some [] :=
  c9_zero_tables ⟨true, true, []⟩ rfl rfl rfl

/-- C10: a registry entry, inserted before its background load starts, is
permanent — after any sequence of further GUI events the name still maps
to its original path (even if the load failed), every later registration
attempt under that name is a silent no-op, and in the resulting state
every pending load is for a registered name (the entry precedes the
load). -/
theorem c10_registry_permanent (s t : AppState) (hs : Reachable s)
    (hst : Relation.ReflTransGen Step s t) (name path : String)
    (hl : lookupReg s.registry name = some path) :
    lookupReg t.registry name = some path ∧
    (∀ p, loadDatabase t name p = (t, false)) ∧
    (∀ n ∈ t.pending, (lookupReg t.registry n).isSome = true) := by
  have hmono := star_registry_mono hst hl
  obtain ⟨-, hpend, -⟩ := reachable_stateInv (reachable_star hs hst)
  refine ⟨hmono, fun p => ?_, hpend⟩
  unfold loadDatabase
  simp [hmono]

/-- C10 witness: after `shop.db`'s loader thread dies with an exception,
the entry still maps to its original path and re-registration is a
no-op. -/
theorem c10_registry_permanent_witness :
    lookupReg exState3.registry "shop.db" = some "/tmp/shop.db" ∧
    (∀ p, loadDatabase exState3 "shop.db" p = (exState3, false)) ∧
    (∀ n ∈ exState3.pending, (lookupReg exState3.registry n).isSome = true) :=
  c10_registry_permanent exState1 exState3 exState1_reachable
    (Relation.ReflTransGen.single (Step.loadFail exState1 "shop.db" (by decide)))
    "shop.db" "/tmp/shop.db" (by decide)
